import Mathlib

/-!
Verification of the typed-handler library core: a shallow embedding of
`src/handler.ts`, `src/config.ts`, `src/validators/detector.ts`,
`src/validators/adapters.ts` and `src/validators/registry.ts`, together with
proofs about the execution pipeline, validator detection, configuration
merging and the immutable builder discipline.

Modelling conventions:
* JavaScript runtime values are the inductive `Val`; objects are ordered
  association lists of own enumerable string properties, functions are opaque
  tags.  The prototype chain is not modelled, so `k in obj` is membership in
  the own properties.
* `async`/`await` code is sequential here, so stages are ordinary functions;
  a thrown exception is the `Except.error` case of `Except JsError`.
* Calls to the configured logger are modelled as an `Event` trace returned
  next to the result (the default logger is a no-op; the trace records what
  would be logged and which effectful steps ran, in order).
* External validator libraries (zod/joi/yup) are opaque: their structural
  `detect` fingerprints are translated from `validators/adapters.ts`, while
  their `parse` semantics are parameters of the environment `Env`.
* The process-wide registry (`validators/registry.ts`) and the global
  configuration (`config.ts`) are passed explicitly: `Env.registered` is the
  current registry contents, and constructors take the global configuration
  current at the moment they run, mirroring `getConfig()`.
-/

set_option autoImplicit false

namespace TypedHandler

/-- A JavaScript runtime value.  `vobj` lists the own enumerable string-keyed
properties in insertion order; `vfun` is an opaque function value tagged with
an identifier; `vundefined` is `undefined`, distinct from `null`. -/
inductive Val where
  | vundefined
  | vnull
  | vbool (b : Bool)
  | vnum (n : Int)
  | vstr (s : String)
  | vfun (id : Nat)
  | varr (elems : List Val)
  | vobj (fields : List (String × Val))

/-- First binding of a key in an association list of object fields,
mirroring JavaScript property lookup on own properties. -/
def getOwn : List (String × Val) → String → Option Val
  | [], _ => none
  | (k', v) :: rest, k => if k' = k then some v else getOwn rest k

/-- Own properties of a value: the fields of an object, nothing otherwise
(spreading or indexing a non-object contributes no string-keyed data here). -/
def ownFields : Val → List (String × Val)
  | .vobj fields => fields
  | _ => []

/-- `k in v` on own properties. -/
def hasKey (v : Val) (k : String) : Bool :=
  (getOwn (ownFields v) k).isSome

/-- `v[k]`: property access, `undefined` when the key is absent or the value
is not an object. -/
def indexJS (v : Val) (k : String) : Val :=
  (getOwn (ownFields v) k).getD .vundefined

/-- `typeof x === "function"`. -/
def isFunV : Val → Bool
  | .vfun _ => true
  | _ => false

/-- JavaScript assignment `obj[k] = v` on a field list: replaces the value at
the first occurrence of `k`, keeping its position, or appends a new binding. -/
def setKey : List (String × Val) → String → Val → List (String × Val)
  | [], k, v => [(k, v)]
  | (k', v') :: rest, k, v =>
      if k' = k then (k', v) :: rest else (k', v') :: setKey rest k v

/-- Object spread-merge `{...base, ...extra}`: keys of `extra` override keys
of `base`, keys only in `extra` are appended in order. -/
def mergeObj (base extra : Val) : Val :=
  .vobj ((ownFields extra).foldl (fun acc kv => setKey acc kv.1 kv.2) (ownFields base))

/-- `{...x}` where `x` may be `undefined` (as in `{ ...initialContext }` at
`src/handler.ts:197`): a fresh shallow copy of the own properties. -/
def spreadOf : Option Val → Val
  | none => .vobj []
  | some v => .vobj (ownFields v)

/-- Error values thrown by the core: `validation` is the library's
`ValidationError` (`src/errors/validation.ts`), `generic` is any other
`Error`, identified by its message. -/
inductive JsError where
  | validation (msg : String)
  | generic (msg : String)
deriving DecidableEq

/-- Observable effects of one pipeline run, in order: logger calls
(`warn`/`errorLog`), an adapter `parse` call (with the adapter's name), a
middleware invocation, the handler function, and the transform function. -/
inductive Event where
  | warn (msg : String)
  | errorLog (msg : String)
  | ranParse (adapterName : Option String)
  | ranMiddleware
  | ranHandler
  | ranTransform
deriving DecidableEq

/-- A validator adapter (`src/types.ts:18-22`): `parse` validates data
against a schema, `detect` is an optional structural predicate on schemas. -/
structure ValidatorAdapter where
  parse : Val → Val → Except JsError Val
  detect : Option (Val → Bool) := none
  name : Option String := none

/-- Zod detection (`src/validators/adapters.ts`): a non-null object with
`_def` and `parse` properties. -/
def zodDetect (schema : Val) : Bool :=
  hasKey schema "_def" && hasKey schema "parse"

/-- Joi detection (`src/validators/adapters.ts`): a non-null object whose
`$_root` and `type` keys exist and whose `validateAsync` is a function. -/
def joiDetect (schema : Val) : Bool :=
  hasKey schema "$_root" && hasKey schema "type" && isFunV (indexJS schema "validateAsync")

/-- Yup detection (`src/validators/adapters.ts`): a non-null object with the
`__isYupSchema__` marker. -/
def yupDetect (schema : Val) : Bool :=
  hasKey schema "__isYupSchema__"

/-- Process-wide mutable collaborators of one pipeline run: the custom
adapter registry contents (`validators/registry.ts`, in registration order)
and the parse semantics of the three external validator libraries. -/
structure Env where
  registered : List ValidatorAdapter
  zodParse : Val → Val → Except JsError Val
  joiParse : Val → Val → Except JsError Val
  yupParse : Val → Val → Except JsError Val

/-- The built-in adapter `zodAdapter` (`src/validators/adapters.ts:3-12`). -/
def zodAdapter (env : Env) : ValidatorAdapter :=
  { parse := env.zodParse, detect := some zodDetect, name := some "zod" }

/-- The built-in adapter `joiAdapter` (`src/validators/adapters.ts:14-25`). -/
def joiAdapter (env : Env) : ValidatorAdapter :=
  { parse := env.joiParse, detect := some joiDetect, name := some "joi" }

/-- The built-in adapter `yupAdapter` (`src/validators/adapters.ts:27-36`). -/
def yupAdapter (env : Env) : ValidatorAdapter :=
  { parse := env.yupParse, detect := some yupDetect, name := some "yup" }

/-- `builtInAdapters` (`src/validators/adapters.ts:38`): the fixed list
`[zodAdapter, joiAdapter, yupAdapter]`. -/
def builtInAdapters (env : Env) : List ValidatorAdapter :=
  [zodAdapter env, joiAdapter env, yupAdapter env]

/-- One `for` loop of `detectValidator` (`src/validators/detector.ts:8-19`):
first adapter whose `detect` exists and answers `true` for the schema. -/
def findDetected : List ValidatorAdapter → Val → Option ValidatorAdapter
  | [], _ => none
  | a :: rest, s =>
      match a.detect with
      | some d => if d s then some a else findDetected rest s
      | none => findDetected rest s

/-- `detectValidator` (`src/validators/detector.ts:5-21`): scan the
registered custom adapters in registration order, then the built-in list,
returning the first adapter whose `detect` predicate matches; `none` if no
adapter matches. -/
def detectValidator (env : Env) (schema : Val) : Option ValidatorAdapter :=
  match findDetected env.registered schema with
  | some a => some a
  | none => findDetected (builtInAdapters env) schema

/-- `adapterOrDetect explicit env schema` is
`explicit || detectValidator(schema)` as at `src/handler.ts:70,83,114`. -/
def adapterOrDetect (explicit : Option ValidatorAdapter) (env : Env) (schema : Val) :
    Option ValidatorAdapter :=
  match explicit with
  | some a => some a
  | none => detectValidator env schema

/-- The resolved handler configuration (`src/types.ts:40-44`, minus the
logger, which is modelled by the event trace). -/
structure HandlerConfig where
  validateInput : Bool
  validateOutput : Bool
deriving DecidableEq

/-- An optional-field override, the `Partial<HandlerConfig>` accepted by the
constructor (`src/handler.ts:27`). -/
structure ConfigOverride where
  validateInput : Option Bool := none
  validateOutput : Option Bool := none

/-- `{ ...g, ...o }`: the constructor's merge of the global configuration
with the per-instance override (`src/handler.ts:28`). -/
def mergeConfig (g : HandlerConfig) (o : Option ConfigOverride) : HandlerConfig :=
  match o with
  | none => g
  | some p =>
      { validateInput := p.validateInput.getD g.validateInput
        validateOutput := p.validateOutput.getD g.validateOutput }

/-- A full configuration viewed as an override with every field present, as
when `clone` passes `this.config` back into the constructor
(`src/handler.ts:32`). -/
def fullOverride (c : HandlerConfig) : ConfigOverride :=
  { validateInput := some c.validateInput, validateOutput := some c.validateOutput }

/-- Middleware (`src/types.ts:12-15`): `(input, context) → partial context`,
possibly throwing. -/
def Middleware := Val → Val → Except JsError Val

/-- Handler function (`src/types.ts:5-9`). -/
def HandlerFn := Val → Val → Except JsError Val

/-- Transform function `(output, context) → new output`.  Modelled from the
spec: the `transform` stage (spec sections 3, 4.6 and the TECHSPEC) is absent
from `src/handler.ts`; only its tests and the spec describe it. -/
def TransformFn := Val → Val → Except JsError Val

/-- The stored input validator (`src/handler.ts:11-15`). -/
structure InputValidatorState where
  schema : Val
  adapter : Option ValidatorAdapter
  isMultiInput : Bool

/-- The stored output validator (`src/handler.ts:17-20`). -/
structure OutputValidatorState where
  schema : Val
  adapter : Option ValidatorAdapter

/-- The Handler builder state (`src/handler.ts:10-29`).  The `transformFn`
field is modelled from the spec (section 3), being absent from
`src/handler.ts`. -/
structure Handler where
  inputValidator : Option InputValidatorState
  outputValidator : Option OutputValidatorState
  middlewares : List Middleware
  handlerFn : Option HandlerFn
  transformFn : Option TransformFn
  config : HandlerConfig

/-- The constructor (`src/handler.ts:27-29`): fields empty, configuration
merged from the global configuration current at construction time. -/
def Handler.new (g : HandlerConfig) (override : Option ConfigOverride) : Handler :=
  { inputValidator := none, outputValidator := none, middlewares := []
    handlerFn := none, transformFn := none, config := mergeConfig g override }

/-- `clone` (`src/handler.ts:31-38`): a new instance built by the
constructor (so the configuration is re-merged against the global
configuration `g` current at the chain call, with the parent's full
configuration as override) with every stage field shallow-copied.  Copying
`transformFn` follows the spec (section 3) and the TECHSPEC clone. -/
def Handler.clone (g : HandlerConfig) (h : Handler) : Handler :=
  { inputValidator := h.inputValidator, outputValidator := h.outputValidator
    middlewares := h.middlewares, handlerFn := h.handlerFn
    transformFn := h.transformFn
    config := mergeConfig g (some (fullOverride h.config)) }

/-- The four reserved multi-input keys (`src/handler.ts:51`). -/
def reservedKeys : List String := ["body", "query", "params", "headers"]

/-- `detectMultiInput` (`src/handler.ts:40-53`): a non-null, non-array
object, none of whose own enumerable properties is a function, having at
least one reserved key. -/
def detectMultiInput : Val → Bool
  | .vobj fields =>
      if fields.any (fun kv => isFunV kv.2) then false
      else reservedKeys.any (fun k => (getOwn fields k).isSome)
  | _ => false

/-- `input` (`src/handler.ts:141-156`): clone; with no schema return the
clone unchanged, otherwise overwrite `inputValidator`, computing
`isMultiInput` from the schema now. -/
def Handler.input (g : HandlerConfig) (h : Handler) (schema : Option Val)
    (adapter : Option ValidatorAdapter) : Handler :=
  let nh := h.clone g
  match schema with
  | none => nh
  | some s =>
      { nh with inputValidator := some ⟨s, adapter, detectMultiInput s⟩ }

/-- `use` (`src/handler.ts:158-164`): clone, then append one middleware. -/
def Handler.use (g : HandlerConfig) (h : Handler) (m : Middleware) : Handler :=
  let nh := h.clone g
  { nh with middlewares := nh.middlewares ++ [m] }

/-- `handle` (`src/handler.ts:166-170`): clone, then overwrite the handler
function. -/
def Handler.handle (g : HandlerConfig) (h : Handler) (f : HandlerFn) : Handler :=
  { h.clone g with handlerFn := some f }

/-- `output` (`src/handler.ts:172-185`): clone; with no schema return the
clone unchanged, otherwise overwrite `outputValidator`. -/
def Handler.output (g : HandlerConfig) (h : Handler) (schema : Option Val)
    (adapter : Option ValidatorAdapter) : Handler :=
  let nh := h.clone g
  match schema with
  | none => nh
  | some s => { nh with outputValidator := some ⟨s, adapter⟩ }

/-- Modelled from the spec: `transform` (spec sections 4.6 and 6; absent from
`src/handler.ts`): clone, then overwrite the transform function. -/
def Handler.transform (g : HandlerConfig) (h : Handler) (t : TransformFn) : Handler :=
  { h.clone g with transformFn := some t }

/-- `expectsMultiInput` (`src/handler.ts:213-215`):
`this.inputValidator?.isMultiInput ?? false`. -/
def Handler.expectsMultiInput (h : Handler) : Bool :=
  match h.inputValidator with
  | some iv => iv.isMultiInput
  | none => false

/-- Rethrow-or-wrap of exceptions from input validation
(`src/handler.ts:94-105`): a `ValidationError` is rethrown as-is, anything
else is wrapped into `ValidationError("Validation failed")`. -/
def wrapInputError : JsError → JsError
  | .validation m => .validation m
  | .generic _ => .validation "Validation failed"

/-- Rethrow-or-wrap of exceptions from output validation
(`src/handler.ts:127-138`). -/
def wrapOutputError : JsError → JsError
  | .validation m => .validation m
  | .generic _ => .validation "Output validation failed"

/-- The multi-input `for` loop of `validateInput` (`src/handler.ts:66-78`):
for each reserved key declared in the schema, resolve an adapter for the
part's sub-schema (explicit override first, else auto-detection) and parse
the part's raw value, or pass it through when no adapter resolves; a parse
exception aborts the loop. -/
def validateParts (iv : InputValidatorState) (env : Env) (input : Val) :
    List String → Except JsError (List (String × Val)) × List Event
  | [] => (.ok [], [])
  | k :: rest =>
      if hasKey iv.schema k then
        let partSchema := indexJS iv.schema k
        let partData := indexJS input k
        match adapterOrDetect iv.adapter env partSchema with
        | some a =>
            match a.parse partSchema partData with
            | .ok v =>
                let (r, evs) := validateParts iv env input rest
                (r.map (fun fs => (k, v) :: fs), .ranParse a.name :: evs)
            | .error e => (.error e, [.ranParse a.name])
        | none =>
            let (r, evs) := validateParts iv env input rest
            (r.map (fun fs => (k, partData) :: fs), evs)
      else validateParts iv env input rest

/-- `validateInput` (`src/handler.ts:55-106`): pass through with no
validator; in multi-input mode run the per-part loop and collect only the
schema-declared keys; in single mode resolve one adapter and parse the whole
value, warning and passing through when no adapter resolves (the warning is
guarded by `config.validateInput`); exceptions are logged and rethrown
wrapped as `ValidationError` unless already one. -/
def Handler.validateInput (h : Handler) (env : Env) (data : Val) :
    Except JsError Val × List Event :=
  match h.inputValidator with
  | none => (.ok data, [])
  | some iv =>
      if iv.isMultiInput then
        match validateParts iv env data reservedKeys with
        | (.ok fields, evs) => (.ok (.vobj fields), evs)
        | (.error e, evs) =>
            (.error (wrapInputError e), evs ++ [.errorLog "Input validation failed"])
      else
        match adapterOrDetect iv.adapter env iv.schema with
        | some a =>
            match a.parse iv.schema data with
            | .ok v => (.ok v, [.ranParse a.name])
            | .error e =>
                (.error (wrapInputError e),
                  [.ranParse a.name, .errorLog "Input validation failed"])
        | none =>
            if h.config.validateInput then
              (.ok data,
                [.warn "No validator adapter found for input schema, skipping validation"])
            else (.ok data, [])

/-- `validateOutput` (`src/handler.ts:108-139`): like single-schema input
validation, with the output-stage messages and the `validateOutput` guard on
the warning. -/
def Handler.validateOutput (h : Handler) (env : Env) (data : Val) :
    Except JsError Val × List Event :=
  match h.outputValidator with
  | none => (.ok data, [])
  | some ov =>
      match adapterOrDetect ov.adapter env ov.schema with
      | some a =>
          match a.parse ov.schema data with
          | .ok v => (.ok v, [.ranParse a.name])
          | .error e =>
              (.error (wrapOutputError e),
                [.ranParse a.name, .errorLog "Output validation failed"])
      | none =>
          if h.config.validateOutput then
            (.ok data,
              [.warn "No validator adapter found for output schema, skipping validation"])
          else (.ok data, [])

/-- Prepend already-accumulated events to a later stage's result. -/
def prependEvents (pre : List Event) : Except JsError Val × List Event →
    Except JsError Val × List Event
  | (r, evs) => (r, pre ++ evs)

/-- The middleware loop (`src/handler.ts:199-202`): strictly sequential; each
middleware is invoked with the validated input and the running context, and
its result is spread-merged into the running context before the next one. -/
def runMiddlewares : List Middleware → Val → Val → Except JsError Val × List Event
  | [], _, ctx => (.ok ctx, [])
  | m :: rest, input, ctx =>
      match m input ctx with
      | .ok part =>
          prependEvents [.ranMiddleware] (runMiddlewares rest input (mergeObj ctx part))
      | .error e => (.error e, [.ranMiddleware])

/-- The input gate (`src/handler.ts:193-195`): input validation runs only
when the instance's cached `validateInput` flag is set. -/
def Handler.inputGate (h : Handler) (env : Env) (data : Val) :
    Except JsError Val × List Event :=
  if h.config.validateInput then h.validateInput env data else (.ok data, [])

/-- The output gate (`src/handler.ts:206`). -/
def Handler.outputGate (h : Handler) (env : Env) (data : Val) :
    Except JsError Val × List Event :=
  if h.config.validateOutput then h.validateOutput env data else (.ok data, [])

/-- The transform stage.  Modelled from the spec (section 4.6): if a
transform function is attached, invoke it with `(output, context)` and use
its result; otherwise the output passes through unchanged; transform errors
propagate unwrapped. -/
def transformStage : Option TransformFn → Val → Val → Except JsError Val × List Event
  | none, out, _ => (.ok out, [])
  | some t, out, ctx =>
      match t out ctx with
      | .ok v => (.ok v, [.ranTransform])
      | .error e => (.error e, [.ranTransform])

/-- Pipeline tail after the handler function has produced `out`
(continuing `execute`): transform stage (spec section 4.6), then the gated
output validation (`src/handler.ts:206`). -/
def Handler.afterHandler (h : Handler) (env : Env) (ctx out : Val) :
    Except JsError Val × List Event :=
  match transformStage h.transformFn out ctx with
  | (.error e, evs) => (.error e, evs)
  | (.ok tout, evs) => prependEvents evs (h.outputGate env tout)

/-- Pipeline tail after middleware produced the final context `ctx`
(`src/handler.ts:204-206`): invoke the handler function once with
`(input, context)`, then the post-handler tail. -/
def Handler.afterMiddleware (h : Handler) (env : Env) (f : HandlerFn) (vi ctx : Val) :
    Except JsError Val × List Event :=
  match f vi ctx with
  | .error e => (.error e, [.ranHandler])
  | .ok out => prependEvents [.ranHandler] (h.afterHandler env ctx out)

/-- Pipeline tail after input validation produced `vi`
(`src/handler.ts:197-206`): initialize the context to a shallow copy of the
caller-supplied initial context, run the middleware loop, then the
post-middleware tail. -/
def Handler.afterInput (h : Handler) (env : Env) (f : HandlerFn) (vi : Val)
    (initialContext : Option Val) : Except JsError Val × List Event :=
  match runMiddlewares h.middlewares vi (spreadOf initialContext) with
  | (.error e, evs) => (.error e, evs)
  | (.ok ctx, evs) => prependEvents evs (h.afterMiddleware env f vi ctx)

/-- The top-level catch (`src/handler.ts:207-210`): any error is logged once
as "Handler execution failed" and rethrown. -/
def finishExec : Except JsError Val × List Event → Except JsError Val × List Event
  | (.error e, evs) => (.error e, evs ++ [.errorLog "Handler execution failed"])
  | (.ok v, evs) => (.ok v, evs)

/-- `execute` (`src/handler.ts:187-211`): fail fast when no handler function
is attached; otherwise gated input validation, middleware accumulation,
handler invocation, transform stage (modelled from the spec), gated output
validation; every error passes the top-level log-and-rethrow. -/
def Handler.execute (h : Handler) (env : Env) (input : Val)
    (initialContext : Option Val) : Except JsError Val × List Event :=
  match h.handlerFn with
  | none =>
      (.error (.generic "Handler function not defined"),
        [.errorLog "Handler execution failed"])
  | some f =>
      finishExec
        (match h.inputGate env input with
         | (.error e, evs) => (.error e, evs)
         | (.ok vi, evs) => prependEvents evs (h.afterInput env f vi initialContext))

/-!
Heap model of builder aliasing.  The pure `Handler` above cannot express the
JavaScript notions of object identity and shared array storage, so the
builder methods are modelled a second time over an explicit store:
`Store.arrays` is the arena of middleware arrays (an array reference is an
index), `Store.nextHid` allocates object identities.  Stage-field payloads
are abstract type parameters since only the copy/alias structure of
`clone`/`input`/`use`/`handle`/`output` (`src/handler.ts:31-185`) is at
stake here.
-/

namespace Heap

/-- A handler object in the store: an object identity, the stage fields, and
a reference (index) to its middlewares array. -/
structure HeapHandler (IV OV F C : Type) where
  hid : Nat
  inputValidator : Option IV
  outputValidator : Option OV
  midsRef : Nat
  handlerFn : Option F
  config : C

/-- The store: the next fresh object identity and the arena of middleware
arrays. -/
structure Store (M : Type) where
  nextHid : Nat
  arrays : List (List M)

variable {IV OV F C M : Type}

/-- Dereference a middlewares-array reference. -/
def midsAt (s : Store M) (r : Nat) : List M :=
  s.arrays.getD r []

/-- `clone` (`src/handler.ts:31-38`): allocate a new object and a fresh
array whose content copies the parent's (`[...this.middlewares]`), and
shallow-copy every stage field. -/
def clone (s : Store M) (h : HeapHandler IV OV F C) :
    Store M × HeapHandler IV OV F C :=
  (⟨s.nextHid + 1, s.arrays ++ [midsAt s h.midsRef]⟩,
   ⟨s.nextHid, h.inputValidator, h.outputValidator, s.arrays.length,
    h.handlerFn, h.config⟩)

/-- `input` (`src/handler.ts:141-156`): clone; overwrite `inputValidator`
only when a schema was supplied. -/
def input (s : Store M) (h : HeapHandler IV OV F C) (iv : Option IV) :
    Store M × HeapHandler IV OV F C :=
  let (s', nh) := clone s h
  match iv with
  | none => (s', nh)
  | some v => (s', { nh with inputValidator := some v })

/-- `use` (`src/handler.ts:158-164`): clone, then push the middleware onto
the clone's (fresh) array. -/
def use (s : Store M) (h : HeapHandler IV OV F C) (m : M) :
    Store M × HeapHandler IV OV F C :=
  let (s', nh) := clone s h
  ({ s' with arrays := s'.arrays.set nh.midsRef (midsAt s' nh.midsRef ++ [m]) }, nh)

/-- `handle` (`src/handler.ts:166-170`): clone, then overwrite the handler
function. -/
def handle (s : Store M) (h : HeapHandler IV OV F C) (f : F) :
    Store M × HeapHandler IV OV F C :=
  let (s', nh) := clone s h
  (s', { nh with handlerFn := some f })

/-- `output` (`src/handler.ts:172-185`): clone; overwrite `outputValidator`
only when a schema was supplied. -/
def output (s : Store M) (h : HeapHandler IV OV F C) (ov : Option OV) :
    Store M × HeapHandler IV OV F C :=
  let (s', nh) := clone s h
  match ov with
  | none => (s', nh)
  | some v => (s', { nh with outputValidator := some v })

/-- Everything `execute` can observe about a handler: its stage fields and
the dereferenced content of its middlewares array. -/
def observe (s : Store M) (h : HeapHandler IV OV F C) :
    Option IV × Option OV × Option F × C × List M :=
  (h.inputValidator, h.outputValidator, h.handlerFn, h.config, midsAt s h.midsRef)

/-- A handler reference is well formed in a store: its identity was
allocated and its array reference points into the arena. -/
def wf (s : Store M) (h : HeapHandler IV OV F C) : Prop :=
  h.hid < s.nextHid ∧ h.midsRef < s.arrays.length

end Heap

/-- Whether an adapter's optional `detect` predicate exists and matches the
schema — the test `adapter.detect && adapter.detect(schema)` of
`src/validators/detector.ts:9,15`. -/
def detectHit (a : ValidatorAdapter) (s : Val) : Bool :=
  match a.detect with
  | some d => d s
  | none => false

/-!
Concrete fixtures used by witnesses and counterexamples.
-/

namespace Fix

/-- An external parse that always throws (stands for a failing library
validator). -/
def noParse : Val → Val → Except JsError Val :=
  fun _ _ => .error (.generic "external parse failure")

/-- An environment with an empty custom registry and failing external
parsers. -/
def envEmpty : Env :=
  { registered := [], zodParse := noParse, joiParse := noParse, yupParse := noParse }

/-- An environment whose zod parser accepts and returns the data
unchanged. -/
def envZodOk : Env :=
  { registered := [], zodParse := fun _ d => .ok d, joiParse := noParse, yupParse := noParse }

/-- The identity handler function. -/
def idFn : HandlerFn := fun v _ => .ok v

/-- Global configuration with both validation flags off. -/
def cfgOff : HandlerConfig := ⟨false, false⟩

/-- Global configuration with input validation on, output validation off. -/
def cfgInOn : HandlerConfig := ⟨true, false⟩

/-- A value with the zod structural fingerprint (`_def` and `parse` keys). -/
def zodLikeSchema : Val := .vobj [("_def", .vnull), ("parse", .vfun 0)]

/-- A plain-object schema no built-in adapter recognizes. -/
def unknownSchema : Val := .vobj [("customValidator", .vbool true)]

/-- A multi-input schema whose single part is unrecognizable. -/
def multiUnknownSchema : Val := .vobj [("body", unknownSchema)]

/-- C2 fixture: handler constructed (and chained) while the global
configuration had `validateInput: false`, holding a zod-like input schema
and an identity handler function. -/
def hC2 : Handler :=
  Handler.handle cfgOff (Handler.input cfgOff (Handler.new cfgOff none) (some zodLikeSchema) none) idFn

/-- C5 fixture: multi-input handler over `multiUnknownSchema`, constructed
with input validation on. -/
def hC5 : Handler :=
  Handler.handle cfgInOn
    (Handler.input cfgInOn (Handler.new cfgInOn none) (some multiUnknownSchema) none) idFn

/-- C5 witness fixture: a handler record with both validation flags on, an
unrecognizable single-input schema and an unrecognizable output schema. -/
def hC5w : Handler :=
  { inputValidator := some ⟨unknownSchema, none, false⟩
    outputValidator := some ⟨unknownSchema, none⟩
    middlewares := [], handlerFn := some idFn, transformFn := none
    config := ⟨true, true⟩ }

/-- A zod-like sub-schema for the `body` part. -/
def sB : Val := .vobj [("_def", .vnull), ("parse", .vfun 1)]

/-- A zod-like sub-schema for the `query` part. -/
def sQ : Val := .vobj [("_def", .vnull), ("parse", .vfun 2)]

/-- C5 fixture: a mixed multi-input schema — a zod-detected `body` part next
to an unrecognizable `query` part. -/
def mixedSchema : Val := .vobj [("body", sB), ("query", unknownSchema)]

/-- C5 fixture: multi-input handler over `mixedSchema`, constructed with
input validation on. -/
def hC5m : Handler :=
  Handler.handle cfgInOn
    (Handler.input cfgInOn (Handler.new cfgInOn none) (some mixedSchema) none) idFn

/-- C5 fixture: raw input for the mixed-schema handler. -/
def rawMixed : Val := .vobj [("body", .vnum 1), ("query", .vnum 2)]

/-- C6 fixture: the multi-input schema `{body: sB, query: sQ}`. -/
def schemaC6 : Val := .vobj [("body", sB), ("query", sQ)]

/-- C6 fixture: raw input carrying `body`, `query` and an extra `params`
key that the schema does not declare. -/
def rawC6 : Val := .vobj [("body", .vnum 1), ("query", .vnum 2), ("params", .vnum 3)]

/-- C6 fixture: multi-input handler over `schemaC6`. -/
def hC6 : Handler :=
  Handler.handle cfgInOn
    (Handler.input cfgInOn (Handler.new cfgInOn none) (some schemaC6) none) idFn

/-- C1 fixture: handler (validation off) whose transform wraps the output in
a one-element array. -/
def hC1 : Handler :=
  Handler.transform cfgOff (Handler.handle cfgOff (Handler.new cfgOff none) idFn)
    (fun o _ => .ok (.varr [o]))

/-- C8 fixture: input schema attached but no handler function. -/
def hC8 : Handler :=
  Handler.input cfgInOn (Handler.new cfgInOn none) (some zodLikeSchema) none

/-- A registered adapter with no `detect` predicate. -/
def adNoDetect : ValidatorAdapter := { parse := noParse }

/-- Heap-model fixture store: one allocated handler identity and one empty
middleware array. -/
def s0 : Heap.Store Nat := ⟨1, [[]]⟩

/-- Heap-model fixture handler living in `s0`. -/
def h0 : Heap.HeapHandler Nat Nat Nat Nat := ⟨0, none, none, 0, none, 0⟩

end Fix

/-!
Helper lemmas shared by the claim theorems.
-/

/-- Re-merging a full configuration against any global configuration gives
the full configuration back: this is why `clone` preserves the cached
configuration even though it goes through the constructor. -/
theorem mergeConfig_fullOverride (g c : HandlerConfig) :
    mergeConfig g (some (fullOverride c)) = c := by
  cases c
  simp [mergeConfig, fullOverride]

/-- In the pure model, `clone` is the identity: all fields are copied and
the configuration survives the re-merge. -/
theorem clone_eq (g : HandlerConfig) (h : Handler) : Handler.clone g h = h := by
  cases h
  simp [Handler.clone, mergeConfig_fullOverride]

/-- Prepending no events changes nothing. -/
theorem prependEvents_nil (r : Except JsError Val × List Event) :
    prependEvents [] r = r := by
  cases r
  simp [prependEvents]

/-- Prepending event lists composes. -/
theorem prependEvents_comp (a b : List Event) (r : Except JsError Val × List Event) :
    prependEvents a (prependEvents b r) = prependEvents (a ++ b) r := by
  cases r
  simp [prependEvents]

/-- `findDetected` is `List.find?` over the `detectHit` test. -/
theorem findDetected_eq_find (l : List ValidatorAdapter) (s : Val) :
    findDetected l s = l.find? (fun a => detectHit a s) := by
  induction l with
  | nil => simp [findDetected]
  | cons a rest ih =>
      cases hd : a.detect with
      | none => simp [findDetected, hd, detectHit, List.find?, ih]
      | some d => cases hds : d s <;> simp [findDetected, hd, detectHit, List.find?, hds, ih]

/-- Any adapter produced by `findDetected` has a `detect` predicate that
matched the schema. -/
theorem findDetected_some (l : List ValidatorAdapter) (s : Val) (a : ValidatorAdapter)
    (h : findDetected l s = some a) : ∃ d, a.detect = some d ∧ d s = true := by
  rw [findDetected_eq_find] at h
  have hp := List.find?_some h
  cases hd : a.detect with
  | none => simp [detectHit, hd] at hp
  | some d =>
      simp [detectHit, hd] at hp
      exact ⟨d, rfl, hp⟩

/-- C3: `detectMultiInput` answers true exactly for a non-null, non-array
object none of whose own enumerable properties is a function and which
carries at least one reserved key; `input()` stores that boolean at call
time; every other chain method (and `input()` with no schema) leaves
`expectsMultiInput` unchanged. -/
theorem claim_C3 :
    (∀ s : Val, detectMultiInput s = true ↔
      ∃ fields, s = .vobj fields ∧ fields.any (fun kv => isFunV kv.2) = false ∧
        reservedKeys.any (fun k => (getOwn fields k).isSome) = true) ∧
    (∀ (g : HandlerConfig) (h : Handler) (s : Val) (a : Option ValidatorAdapter),
      (Handler.input g h (some s) a).expectsMultiInput = detectMultiInput s) ∧
    (∀ (g : HandlerConfig) (h : Handler) (a : Option ValidatorAdapter),
      (Handler.input g h none a).expectsMultiInput = h.expectsMultiInput) ∧
    (∀ (g : HandlerConfig) (h : Handler) (m : Middleware),
      (Handler.use g h m).expectsMultiInput = h.expectsMultiInput) ∧
    (∀ (g : HandlerConfig) (h : Handler) (f : HandlerFn),
      (Handler.handle g h f).expectsMultiInput = h.expectsMultiInput) ∧
    (∀ (g : HandlerConfig) (h : Handler) (s : Option Val) (a : Option ValidatorAdapter),
      (Handler.output g h s a).expectsMultiInput = h.expectsMultiInput) ∧
    (∀ (g : HandlerConfig) (h : Handler) (t : TransformFn),
      (Handler.transform g h t).expectsMultiInput = h.expectsMultiInput) := by
  refine ⟨?_, ?_, ?_, ?_, ?_, ?_, ?_⟩
  · intro s
    cases s with
    | vobj fields =>
        by_cases hfn : fields.any (fun kv => isFunV kv.2) = true
        · simp only [detectMultiInput, if_pos hfn]
          constructor
          · intro hh
            exact absurd hh (by simp)
          · rintro ⟨f', heq, hfn2, _⟩
            injection heq with hh
            subst hh
            rw [hfn] at hfn2
            exact absurd hfn2 (by simp)
        · have hfn' : fields.any (fun kv => isFunV kv.2) = false := by simpa using hfn
          simp only [detectMultiInput, if_neg hfn]
          constructor
          · intro hres
            exact ⟨fields, rfl, hfn', hres⟩
          · rintro ⟨f', heq, _, hres⟩
            injection heq with hh
            subst hh
            exact hres
    | vundefined => simp [detectMultiInput]
    | vnull => simp [detectMultiInput]
    | vbool b => simp [detectMultiInput]
    | vnum n => simp [detectMultiInput]
    | vstr s => simp [detectMultiInput]
    | vfun i => simp [detectMultiInput]
    | varr xs => simp [detectMultiInput]
  · intro g h s a
    simp [Handler.input, Handler.expectsMultiInput]
  · intro g h a
    simp [Handler.input, clone_eq]
  · intro g h m
    simp [Handler.use, Handler.expectsMultiInput, clone_eq]
  · intro g h f
    simp [Handler.handle, Handler.expectsMultiInput, clone_eq]
  · intro g h s a
    cases s <;> simp [Handler.output, Handler.expectsMultiInput, clone_eq]
  · intro g h t
    simp [Handler.transform, Handler.expectsMultiInput, clone_eq]

/-- C8: with no handler function attached, `execute` rejects with the
configuration error "Handler function not defined" for every input and
initial context; the trace holds only the top-level failure log, so no
input validation, middleware, or output validation ran first. -/
theorem claim_C8 :
    ∀ (h : Handler) (env : Env) (x : Val) (c : Option Val),
      h.handlerFn = none →
      h.execute env x c =
        (.error (.generic "Handler function not defined"),
          [.errorLog "Handler execution failed"]) := by
  intro h env x c hf
  simp [Handler.execute, hf]

/-- C8 witness: a handler with an input schema but no `handle()` call
rejects on an arbitrary input. -/
theorem claim_C8_witness :
    Fix.hC8.handlerFn = none ∧
    Fix.hC8.execute Fix.envEmpty (.vnum 1) none =
      (.error (.generic "Handler function not defined"),
        [.errorLog "Handler execution failed"]) :=
  ⟨rfl, claim_C8 Fix.hC8 Fix.envEmpty (.vnum 1) none rfl⟩

/-- C2 (amended): the effective gating flags are the merge of the global
configuration as it stood at construction with the instance overrides,
cached on the instance: every chain method preserves the cached
configuration no matter what the global configuration is when it runs, and
`execute` gates the validation stages on exactly those cached flags (a
cleared cached flag makes the corresponding validator irrelevant). -/
theorem claim_C2 :
    (∀ (g : HandlerConfig) (o : Option ConfigOverride),
      (Handler.new g o).config = mergeConfig g o) ∧
    (∀ (g : HandlerConfig) (h : Handler), (h.clone g).config = h.config) ∧
    (∀ (g : HandlerConfig) (h : Handler) (s : Option Val) (a : Option ValidatorAdapter),
      (Handler.input g h s a).config = h.config) ∧
    (∀ (g : HandlerConfig) (h : Handler) (m : Middleware),
      (Handler.use g h m).config = h.config) ∧
    (∀ (g : HandlerConfig) (h : Handler) (f : HandlerFn),
      (Handler.handle g h f).config = h.config) ∧
    (∀ (g : HandlerConfig) (h : Handler) (s : Option Val) (a : Option ValidatorAdapter),
      (Handler.output g h s a).config = h.config) ∧
    (∀ (g : HandlerConfig) (h : Handler) (t : TransformFn),
      (Handler.transform g h t).config = h.config) ∧
    (∀ (h : Handler) (env : Env) (x : Val) (c : Option Val),
      h.config.validateInput = false →
      h.execute env x c = Handler.execute { h with inputValidator := none } env x c) ∧
    (∀ (h : Handler) (env : Env) (x : Val) (c : Option Val),
      h.config.validateOutput = false →
      h.execute env x c = Handler.execute { h with outputValidator := none } env x c) := by
  refine ⟨?_, ?_, ?_, ?_, ?_, ?_, ?_, ?_, ?_⟩
  · intro g o
    rfl
  · intro g h
    rw [clone_eq]
  · intro g h s a
    cases s <;> simp [Handler.input, clone_eq]
  · intro g h m
    simp [Handler.use, clone_eq]
  · intro g h f
    simp [Handler.handle, clone_eq]
  · intro g h s a
    cases s <;> simp [Handler.output, clone_eq]
  · intro g h t
    simp [Handler.transform, clone_eq]
  · intro h env x c hI
    simp [Handler.execute, Handler.inputGate, hI, Handler.afterInput,
      Handler.afterMiddleware, Handler.afterHandler, Handler.outputGate,
      Handler.validateOutput]
  · intro h env x c hO
    simp [Handler.execute, Handler.inputGate, Handler.validateInput,
      Handler.afterInput, Handler.afterMiddleware, Handler.afterHandler,
      Handler.outputGate, hO]

/-- C2 counterexample: a handler constructed while the global configuration
had `validateInput: false`.  Under the claimed fresh-merge semantics a later
`execute` performed while the global configuration has `validateInput: true`
would have to reject the input of this zod-detected schema whose parse
fails; the code instead uses the construction-time snapshot and succeeds. -/
theorem claim_C2_counterexample :
    (mergeConfig ⟨true, false⟩ none).validateInput = true ∧
    (Handler.execute { Fix.hC2 with config := mergeConfig ⟨true, false⟩ none }
        Fix.envEmpty (.vnum 1) none).1 = .error (.validation "Validation failed") ∧
    Fix.hC2.execute Fix.envEmpty (.vnum 1) none = (.ok (.vnum 1), [.ranHandler]) :=
  ⟨rfl, rfl, rfl⟩

/-- C2 witness: the amended claim evaluated on the same fixture: the cached
configuration is the construction-time merge and a cleared cached flag makes
the attached input validator irrelevant. -/
theorem claim_C2_witness :
    (Handler.new Fix.cfgOff none).config = mergeConfig Fix.cfgOff none ∧
    Fix.hC2.config.validateInput = false ∧
    Fix.hC2.execute Fix.envEmpty (.vnum 1) none =
      Handler.execute { Fix.hC2 with inputValidator := none } Fix.envEmpty (.vnum 1) none :=
  ⟨claim_C2.1 Fix.cfgOff none, rfl,
    claim_C2.2.2.2.2.2.2.2.1 Fix.hC2 Fix.envEmpty (.vnum 1) none rfl⟩

/-- C10: `detectValidator` is the first registered custom adapter (in
registration order) whose `detect` exists and matches, else the first
matching built-in adapter in the fixed order zod, joi, yup, else none; an
adapter without a `detect` predicate is skipped and never returned. -/
theorem claim_C10 :
    (∀ (env : Env) (s : Val),
      detectValidator env s =
        (env.registered.find? (fun a => detectHit a s)).orElse
          (fun _ => (builtInAdapters env).find? (fun a => detectHit a s))) ∧
    (∀ env : Env, (builtInAdapters env).map (fun a => a.name) =
        [some "zod", some "joi", some "yup"]) ∧
    (∀ (env : Env) (a : ValidatorAdapter) (rest : List ValidatorAdapter) (s : Val),
      a.detect = none →
      detectValidator { env with registered := a :: rest } s =
        detectValidator { env with registered := rest } s) ∧
    (∀ (env : Env) (s : Val) (a : ValidatorAdapter),
      detectValidator env s = some a → ∃ d, a.detect = some d ∧ d s = true) := by
  refine ⟨?_, ?_, ?_, ?_⟩
  · intro env s
    rw [detectValidator, findDetected_eq_find, findDetected_eq_find]
    cases env.registered.find? (fun a => detectHit a s) <;> simp [Option.orElse]
  · intro env
    rfl
  · intro env a rest s hd
    have hskip : findDetected (a :: rest) s = findDetected rest s := by
      simp only [findDetected, hd]
    simp only [detectValidator, hskip]
    rfl
  · intro env s a h
    rw [detectValidator] at h
    cases hreg : findDetected env.registered s with
    | some a' =>
        rw [hreg] at h
        simp at h
        subst h
        exact findDetected_some _ _ _ hreg
    | none =>
        rw [hreg] at h
        simp at h
        exact findDetected_some _ _ _ h

/-- C10 witness: a registered adapter without a `detect` predicate is
skipped, and the adapter detected for a zod-like schema carries a matching
`detect` predicate. -/
theorem claim_C10_witness :
    detectValidator { Fix.envEmpty with registered := [Fix.adNoDetect] } Fix.zodLikeSchema =
      detectValidator { Fix.envEmpty with registered := [] } Fix.zodLikeSchema ∧
    (∃ d, (zodAdapter Fix.envEmpty).detect = some d ∧ d Fix.zodLikeSchema = true) :=
  ⟨claim_C10.2.2.1 Fix.envEmpty Fix.adNoDetect [] Fix.zodLikeSchema rfl,
    claim_C10.2.2.2 Fix.envEmpty Fix.zodLikeSchema (zodAdapter Fix.envEmpty) rfl⟩

/-- Assigning key `k` makes lookup of `k` yield the new value. -/
theorem getOwn_setKey_self (l : List (String × Val)) (k : String) (v : Val) :
    getOwn (setKey l k v) k = some v := by
  induction l with
  | nil => simp [setKey, getOwn]
  | cons kv rest ih =>
      obtain ⟨k0, v0⟩ := kv
      by_cases hk : k0 = k
      · simp [setKey, hk, getOwn]
      · simp [setKey, hk, getOwn, ih]

/-- Assigning key `k` leaves lookups of other keys unchanged. -/
theorem getOwn_setKey_ne (l : List (String × Val)) (k k' : String) (v : Val)
    (h : k' ≠ k) : getOwn (setKey l k v) k' = getOwn l k' := by
  induction l with
  | nil => simp [setKey, getOwn, Ne.symm h]
  | cons kv rest ih =>
      obtain ⟨k0, v0⟩ := kv
      by_cases hk : k0 = k
      · subst hk
        simp [setKey, getOwn, Ne.symm h]
      · by_cases hk' : k0 = k' <;> simp [setKey, hk, getOwn, hk', ih, h]

/-- Lookup misses when the key is not among the field names. -/
theorem getOwn_eq_none_of_not_mem (l : List (String × Val)) (k : String)
    (h : k ∉ l.map Prod.fst) : getOwn l k = none := by
  induction l with
  | nil => rfl
  | cons kv rest ih =>
      obtain ⟨k0, v0⟩ := kv
      simp only [List.map_cons, List.mem_cons] at h
      push_neg at h
      obtain ⟨h1, h2⟩ := h
      simp [getOwn, Ne.symm h1, ih h2]

/-- Spread-merge lookup: when the extra object has no duplicate keys, a key
resolves to the extra object's binding when present, else the base's. -/
theorem getOwn_foldl_setKey (b e : List (String × Val)) (k : String)
    (h : (e.map Prod.fst).Nodup) :
    getOwn (e.foldl (fun acc kv => setKey acc kv.1 kv.2) b) k =
      (getOwn e k).orElse (fun _ => getOwn b k) := by
  induction e generalizing b with
  | nil => rfl
  | cons kv rest ih =>
      obtain ⟨k0, v0⟩ := kv
      simp only [List.map_cons, List.nodup_cons] at h
      obtain ⟨hk0, hrest⟩ := h
      rw [List.foldl_cons, ih _ hrest]
      by_cases hk : k0 = k
      · subst hk
        rw [getOwn_eq_none_of_not_mem rest k0 hk0]
        simp [getOwn, getOwn_setKey_self, Option.orElse]
      · rw [getOwn_setKey_ne _ _ _ _ (Ne.symm hk)]
        simp [getOwn, hk]

/-- C4: `execute` starts the middleware stage from a shallow copy of the
caller-supplied initial context; middlewares run strictly sequentially in
registration order, each invoked with the validated input and the context
accumulated so far; each returned partial context is spread-merged into the
running context with later keys overriding earlier ones on conflict. -/
theorem claim_C4 :
    (spreadOf none = .vobj [] ∧ ∀ fs, spreadOf (some (.vobj fs)) = .vobj fs) ∧
    (∀ (h : Handler) (env : Env) (x : Val) (ictx : Option Val) (f : HandlerFn)
        (vi : Val) (evs1 : List Event),
      h.handlerFn = some f →
      h.inputGate env x = (.ok vi, evs1) →
      h.execute env x ictx = finishExec (prependEvents evs1 (h.afterInput env f vi ictx))) ∧
    (∀ (ms1 ms2 : List Middleware) (x c : Val),
      runMiddlewares (ms1 ++ ms2) x c =
        (match runMiddlewares ms1 x c with
         | (.ok c1, e1) => prependEvents e1 (runMiddlewares ms2 x c1)
         | (.error e, e1) => (.error e, e1))) ∧
    (∀ (m : Middleware) (ms : List Middleware) (x c : Val),
      runMiddlewares (m :: ms) x c =
        (match m x c with
         | .ok part => prependEvents [.ranMiddleware] (runMiddlewares ms x (mergeObj c part))
         | .error e => (.error e, [.ranMiddleware]))) ∧
    (∀ (b e : List (String × Val)) (k : String),
      (e.map Prod.fst).Nodup →
      getOwn (ownFields (mergeObj (.vobj b) (.vobj e))) k =
        (getOwn e k).orElse (fun _ => getOwn b k)) := by
  refine ⟨⟨rfl, fun fs => rfl⟩, ?_, ?_, ?_, ?_⟩
  · intro h env x ictx f vi evs1 hf hin
    simp [Handler.execute, hf, hin]
  · intro ms1 ms2 x c
    induction ms1 generalizing c with
    | nil => simp [runMiddlewares, prependEvents_nil]
    | cons m rest ih =>
        cases hm : m x c with
        | error e => simp [runMiddlewares, hm]
        | ok part =>
            rw [List.cons_append]
            simp only [runMiddlewares, hm]
            rw [ih]
            rcases hres : runMiddlewares rest x (mergeObj c part) with ⟨res, evs⟩
            cases res with
            | ok c1 => simp [prependEvents_comp, prependEvents]
            | error e => simp [prependEvents]
  · intro m ms x c
    cases hm : m x c <;> simp [runMiddlewares, hm]
  · intro b e k h
    exact getOwn_foldl_setKey b e k h

/-- C4 witness: the merge-override law at a concrete conflict (`k` appears
in both contexts and the later value wins), and the execute-to-middleware
bridge on a concrete handler. -/
theorem claim_C4_witness :
    getOwn (ownFields (mergeObj (.vobj [("a", .vnum 1), ("k", .vnum 2)])
        (.vobj [("k", .vnum 9), ("z", .vnum 3)]))) "k" =
      ((getOwn [("k", .vnum 9), ("z", .vnum 3)] "k").orElse
        (fun _ => getOwn [("a", .vnum 1), ("k", .vnum 2)] "k")) ∧
    Fix.hC1.execute Fix.envEmpty (.vnum 3) none =
      finishExec (prependEvents [] (Fix.hC1.afterInput Fix.envEmpty Fix.idFn (.vnum 3) none)) :=
  ⟨claim_C4.2.2.2.2 [("a", .vnum 1), ("k", .vnum 2)] [("k", .vnum 9), ("z", .vnum 3)] "k"
      (by decide),
    claim_C4.2.1 Fix.hC1 Fix.envEmpty (.vnum 3) none Fix.idFn (.vnum 3) [] rfl rfl⟩

/-- C1: when `execute` reaches the handler stage (input gate and middleware
succeed and the handler function returns `out` under context `ctx`), the
pipeline continues with `afterHandler`; with a transform attached, the
transform is invoked with `(output, context)` after the handler ran and its
result is the value handed to the (gated) output validation; with no
transform, the handler's output flows to output validation unchanged. -/
theorem claim_C1 :
    ∀ (h : Handler) (env : Env) (x : Val) (ictx : Option Val) (f : HandlerFn)
      (vi ctx out : Val) (evs1 evs2 : List Event),
      h.handlerFn = some f →
      h.inputGate env x = (.ok vi, evs1) →
      runMiddlewares h.middlewares vi (spreadOf ictx) = (.ok ctx, evs2) →
      f vi ctx = .ok out →
      (h.execute env x ictx =
        finishExec (prependEvents (evs1 ++ evs2 ++ [.ranHandler])
          (h.afterHandler env ctx out))) ∧
      (∀ (t : TransformFn) (o2 : Val), h.transformFn = some t → t out ctx = .ok o2 →
        h.afterHandler env ctx out = prependEvents [.ranTransform] (h.outputGate env o2)) ∧
      (h.transformFn = none → h.afterHandler env ctx out = h.outputGate env out) := by
  intro h env x ictx f vi ctx out evs1 evs2 hf hin hmid hrun
  refine ⟨?_, ?_, ?_⟩
  · simp [Handler.execute, hf, hin, Handler.afterInput, hmid, Handler.afterMiddleware,
      hrun, prependEvents_comp]
  · intro t o2 ht hto2
    simp [Handler.afterHandler, transformStage, ht, hto2, prependEvents]
  · intro ht
    simp [Handler.afterHandler, transformStage, ht, prependEvents_nil]

/-- C1 witness: a concrete pipeline whose transform wraps the handler output
in an array, and the same pipeline with the transform removed. -/
theorem claim_C1_witness :
    Fix.hC1.execute Fix.envEmpty (.vnum 3) none =
      (.ok (.varr [.vnum 3]), [.ranHandler, .ranTransform]) ∧
    Handler.execute { Fix.hC1 with transformFn := none } Fix.envEmpty (.vnum 3) none =
      (.ok (.vnum 3), [.ranHandler]) := by
  have h1 := claim_C1 Fix.hC1 Fix.envEmpty (.vnum 3) none Fix.idFn (.vnum 3) (.vobj [])
    (.vnum 3) [] [] rfl rfl rfl rfl
  have h2 := claim_C1 { Fix.hC1 with transformFn := none } Fix.envEmpty (.vnum 3) none
    Fix.idFn (.vnum 3) (.vobj []) (.vnum 3) [] [] rfl rfl rfl rfl
  exact ⟨h1.1.trans rfl, h2.1.trans rfl⟩

/-- The multi-input loop when every declared part resolves an adapter whose
parse succeeds: the result lists exactly the declared reserved keys with
their parsed values, and one parse event per declared part. -/
theorem validateParts_resolved (iv : InputValidatorState) (env : Env) (input : Val)
    (ks : List String) (ad : String → ValidatorAdapter) (pv : String → Val)
    (hres : ∀ k ∈ ks, hasKey iv.schema k = true →
      adapterOrDetect iv.adapter env (indexJS iv.schema k) = some (ad k) ∧
      (ad k).parse (indexJS iv.schema k) (indexJS input k) = .ok (pv k)) :
    validateParts iv env input ks =
      (.ok ((ks.filter (fun k => hasKey iv.schema k)).map (fun k => (k, pv k))),
       (ks.filter (fun k => hasKey iv.schema k)).map (fun k => .ranParse (ad k).name)) := by
  induction ks with
  | nil => rfl
  | cons k rest ih =>
      have ihr := ih (fun k' hk' => hres k' (List.mem_cons_of_mem _ hk'))
      by_cases hk : hasKey iv.schema k = true
      · obtain ⟨ha, hp⟩ := hres k (List.mem_cons_self _ _) hk
        simp [validateParts, hk, ha, hp, ihr, List.filter_cons, Except.map]
      · simp [validateParts, hk, ihr, List.filter_cons]

/-- The multi-input loop under a per-part resolution function `res`: each
declared reserved key either resolves the adapter `res k` whose parse
succeeds with `pv k`, or resolves no adapter and passes its raw value
through (`pv k` is then the raw value).  The loop succeeds, the result lists
exactly the declared keys with their `pv` values, and the events are one
parse event per adapter-resolved part — no event at all for a part with no
adapter. -/
theorem validateParts_perPart (iv : InputValidatorState) (env : Env) (input : Val)
    (ks : List String) (res : String → Option ValidatorAdapter) (pv : String → Val)
    (hres : ∀ k ∈ ks, hasKey iv.schema k = true →
      adapterOrDetect iv.adapter env (indexJS iv.schema k) = res k ∧
      match res k with
      | some a => a.parse (indexJS iv.schema k) (indexJS input k) = .ok (pv k)
      | none => pv k = indexJS input k) :
    validateParts iv env input ks =
      (.ok ((ks.filter (fun k => hasKey iv.schema k)).map (fun k => (k, pv k))),
       (ks.filter (fun k => hasKey iv.schema k)).filterMap
         (fun k => (res k).map (fun a => Event.ranParse a.name))) := by
  induction ks with
  | nil => rfl
  | cons k rest ih =>
      have ihr := ih (fun k' hk' => hres k' (List.mem_cons_of_mem _ hk'))
      by_cases hk : hasKey iv.schema k = true
      · obtain ⟨ha, hp⟩ := hres k (List.mem_cons_self _ _) hk
        cases hresk : res k with
        | some a =>
            rw [hresk] at ha hp
            have hp' : a.parse (indexJS iv.schema k) (indexJS input k) = .ok (pv k) := hp
            simp [validateParts, hk, ha, hp', ihr, List.filter_cons, List.filterMap_cons,
              hresk, Except.map]
        | none =>
            rw [hresk] at ha hp
            have hp' : pv k = indexJS input k := hp
            simp [validateParts, hk, ha, hp', ihr, List.filter_cons, List.filterMap_cons,
              hresk, Except.map]
      · simp [validateParts, hk, ihr, List.filter_cons]

/-- The per-part event list (one parse event per adapter-resolved part)
never contains a warning. -/
theorem warn_not_mem_parseEvents (res : String → Option ValidatorAdapter)
    (l : List String) (msg : String) :
    Event.warn msg ∉ l.filterMap (fun k => (res k).map (fun a => Event.ranParse a.name)) := by
  intro hmem
  rw [List.mem_filterMap] at hmem
  obtain ⟨k, -, hk⟩ := hmem
  cases hres : res k with
  | none =>
      rw [hres] at hk
      simp at hk
  | some a =>
      rw [hres] at hk
      simp at hk

/-- Keys failing the filter predicate are absent from a filtered-and-keyed
field list. -/
theorem getOwn_filter_map_none (p : String → Bool) (f : String → Val) (ks : List String)
    (k : String) (hk : p k = false) :
    getOwn ((ks.filter p).map (fun k' => (k', f k'))) k = none := by
  induction ks with
  | nil => rfl
  | cons a rest ih =>
      by_cases ha : p a = true
      · have hak : a ≠ k := by
          intro hh
          rw [hh, hk] at ha
          exact absurd ha (by simp)
        simp [List.filter_cons, ha, getOwn, hak, ih]
      · simp [List.filter_cons, ha, ih]

/-- C5 (amended): when no adapter resolves for a non-empty schema the stage
passes the data through unvalidated and never throws; the warning is logged
only in single-schema mode (input and output stages, guarded by the
respective flag) — in multi-input mode, any part with no resolvable adapter
(whether or not other parts resolve one) passes through silently: the stage
succeeds, the unresolved parts carry their raw values, and the trace holds
one parse event per resolved part and no warning whatsoever. -/
theorem claim_C5 :
    (∀ (h : Handler) (env : Env) (iv : InputValidatorState) (data : Val),
      h.inputValidator = some iv → iv.isMultiInput = false → iv.adapter = none →
      detectValidator env iv.schema = none → h.config.validateInput = true →
      h.validateInput env data =
        (.ok data,
          [.warn "No validator adapter found for input schema, skipping validation"])) ∧
    (∀ (h : Handler) (env : Env) (ov : OutputValidatorState) (data : Val),
      h.outputValidator = some ov → ov.adapter = none →
      detectValidator env ov.schema = none → h.config.validateOutput = true →
      h.validateOutput env data =
        (.ok data,
          [.warn "No validator adapter found for output schema, skipping validation"])) ∧
    (∀ (h : Handler) (env : Env) (iv : InputValidatorState) (data : Val)
        (res : String → Option ValidatorAdapter) (pv : String → Val),
      h.inputValidator = some iv → iv.isMultiInput = true →
      (∀ k ∈ reservedKeys, hasKey iv.schema k = true →
        adapterOrDetect iv.adapter env (indexJS iv.schema k) = res k ∧
        match res k with
        | some a => a.parse (indexJS iv.schema k) (indexJS data k) = .ok (pv k)
        | none => pv k = indexJS data k) →
      h.validateInput env data =
        (.ok (.vobj ((reservedKeys.filter (fun k => hasKey iv.schema k)).map
            (fun k => (k, pv k)))),
          (reservedKeys.filter (fun k => hasKey iv.schema k)).filterMap
            (fun k => (res k).map (fun a => Event.ranParse a.name))) ∧
      (∀ msg, Event.warn msg ∉
        (reservedKeys.filter (fun k => hasKey iv.schema k)).filterMap
          (fun k => (res k).map (fun a => Event.ranParse a.name)))) := by
  refine ⟨?_, ?_, ?_⟩
  · intro h env iv data hiv hm hada hdet hcfg
    simp [Handler.validateInput, hiv, hm, adapterOrDetect, hada, hdet, hcfg]
  · intro h env ov data hov hada hdet hcfg
    simp [Handler.validateOutput, hov, adapterOrDetect, hada, hdet, hcfg]
  · intro h env iv data res pv hiv hm hres
    constructor
    · rw [Handler.validateInput]
      simp only [hiv, hm, if_pos]
      rw [validateParts_perPart iv env data reservedKeys res pv hres]
    · intro msg
      exact warn_not_mem_parseEvents res _ msg

/-- C5 counterexample: a multi-input handler whose `body` part's schema is a
non-empty plain object no adapter recognizes; the part passes through
unvalidated, but the trace carries no warning event, contradicting the
claim that a warning is logged for a part with a missing adapter. -/
theorem claim_C5_counterexample :
    Fix.hC5.config.validateInput = true ∧
    Fix.hC5.expectsMultiInput = true ∧
    Fix.hC5.execute Fix.envEmpty (.vobj [("body", .vnum 1)]) none =
      (.ok (.vobj [("body", .vnum 1)]), [.ranHandler]) ∧
    Event.warn "No validator adapter found for input schema, skipping validation" ∉
      (Fix.hC5.execute Fix.envEmpty (.vobj [("body", .vnum 1)]) none).2 := by
  refine ⟨rfl, rfl, rfl, ?_⟩
  intro hmem
  have hev : (Fix.hC5.execute Fix.envEmpty (.vobj [("body", .vnum 1)]) none).2 =
      [Event.ranHandler] := rfl
  rw [hev] at hmem
  simp at hmem

/-- C5 witness: the amended behavior evaluated concretely — warnings in
single-schema input and output modes; a fully unrecognizable multi-input
schema passes through with no events; and a mixed schema (zod-detected
`body`, unrecognizable `query`) parses `body`, passes `query` through
silently, and its trace holds exactly one parse event and no warning. -/
theorem claim_C5_witness :
    Fix.hC5w.validateInput Fix.envEmpty (.vnum 7) =
      (.ok (.vnum 7),
        [.warn "No validator adapter found for input schema, skipping validation"]) ∧
    Fix.hC5w.validateOutput Fix.envEmpty (.vnum 7) =
      (.ok (.vnum 7),
        [.warn "No validator adapter found for output schema, skipping validation"]) ∧
    Fix.hC5.validateInput Fix.envEmpty (.vobj [("body", .vnum 1)]) =
      (.ok (.vobj [("body", .vnum 1)]), []) ∧
    Fix.hC5m.validateInput Fix.envZodOk Fix.rawMixed =
      (.ok (.vobj [("body", .vnum 1), ("query", .vnum 2)]),
        [.ranParse (some "zod")]) ∧
    Event.warn "No validator adapter found for input schema, skipping validation" ∉
      [Event.ranParse (some "zod")] := by
  have h3 := claim_C5.2.2 Fix.hC5 Fix.envEmpty ⟨Fix.multiUnknownSchema, none, true⟩
    (.vobj [("body", .vnum 1)]) (fun _ => none)
    (fun k => indexJS (.vobj [("body", .vnum 1)]) k) rfl rfl ?hres1
  have h4 := claim_C5.2.2 Fix.hC5m Fix.envZodOk ⟨Fix.mixedSchema, none, true⟩
    Fix.rawMixed (fun k => if k = "body" then some (zodAdapter Fix.envZodOk) else none)
    (fun k => indexJS Fix.rawMixed k) rfl rfl ?hres2
  · exact ⟨claim_C5.1 Fix.hC5w Fix.envEmpty ⟨Fix.unknownSchema, none, false⟩ (.vnum 7)
        rfl rfl rfl rfl rfl,
      claim_C5.2.1 Fix.hC5w Fix.envEmpty ⟨Fix.unknownSchema, none⟩ (.vnum 7)
        rfl rfl rfl rfl,
      h3.1.trans rfl,
      h4.1.trans rfl,
      h4.2 "No validator adapter found for input schema, skipping validation"⟩
  case hres1 =>
    intro k hk hkey
    simp only [reservedKeys, List.mem_cons, List.mem_singleton] at hk
    rcases hk with rfl | rfl | rfl | (rfl | hk)
    · exact ⟨rfl, rfl⟩
    · exact absurd hkey (by decide)
    · exact absurd hkey (by decide)
    · exact absurd hkey (by decide)
    · exact absurd hk (List.not_mem_nil _)
  case hres2 =>
    intro k hk hkey
    simp only [reservedKeys, List.mem_cons, List.mem_singleton] at hk
    rcases hk with rfl | rfl | rfl | (rfl | hk)
    · exact ⟨rfl, rfl⟩
    · exact ⟨rfl, rfl⟩
    · exact absurd hkey (by decide)
    · exact absurd hkey (by decide)
    · exact absurd hk (List.not_mem_nil _)

/-- C6: for a multi-input handler, when every schema-declared reserved part
resolves an adapter (the explicit override if given, else per-part
auto-detection) whose parse succeeds, the validated input holds exactly the
schema-declared reserved keys mapped to their parsed values, and any key the
schema does not declare is absent from the result. -/
theorem claim_C6 :
    ∀ (h : Handler) (env : Env) (iv : InputValidatorState) (input : Val)
      (ad : String → ValidatorAdapter) (pv : String → Val),
      h.inputValidator = some iv → iv.isMultiInput = true →
      (∀ k ∈ reservedKeys, hasKey iv.schema k = true →
        adapterOrDetect iv.adapter env (indexJS iv.schema k) = some (ad k) ∧
        (ad k).parse (indexJS iv.schema k) (indexJS input k) = .ok (pv k)) →
      h.validateInput env input =
        (.ok (.vobj ((reservedKeys.filter (fun k => hasKey iv.schema k)).map
            (fun k => (k, pv k)))),
          (reservedKeys.filter (fun k => hasKey iv.schema k)).map
            (fun k => .ranParse (ad k).name)) ∧
      (∀ k', hasKey iv.schema k' = false →
        getOwn ((reservedKeys.filter (fun k => hasKey iv.schema k)).map
          (fun k => (k, pv k))) k' = none) := by
  intro h env iv input ad pv hiv hm hres
  constructor
  · rw [Handler.validateInput]
    simp only [hiv, hm, if_pos]
    rw [validateParts_resolved iv env input reservedKeys ad pv hres]
  · intro k' hk'
    exact getOwn_filter_map_none _ _ _ _ hk'

/-- C6 witness: schema `{body: sB, query: sQ}` with raw input carrying an
extra `params` key — the validated input is exactly the parsed `body` and
`query`, with `params` absent. -/
theorem claim_C6_witness :
    Fix.hC6.validateInput Fix.envZodOk Fix.rawC6 =
      (.ok (.vobj [("body", .vnum 1), ("query", .vnum 2)]),
        [.ranParse (some "zod"), .ranParse (some "zod")]) ∧
    getOwn (ownFields (.vobj [("body", .vnum 1), ("query", .vnum 2)])) "params" = none := by
  have hc := claim_C6 Fix.hC6 Fix.envZodOk ⟨Fix.schemaC6, none, true⟩ Fix.rawC6
    (fun _ => zodAdapter Fix.envZodOk) (fun k => indexJS Fix.rawC6 k) rfl rfl ?_
  · exact ⟨hc.1.trans rfl, hc.2 "params" (by decide)⟩
  · intro k hk hkey
    simp only [reservedKeys, List.mem_cons, List.mem_singleton] at hk
    rcases hk with rfl | rfl | rfl | (rfl | hk)
    · exact ⟨rfl, rfl⟩
    · exact ⟨rfl, rfl⟩
    · exact absurd hkey (by decide)
    · exact absurd hkey (by decide)
    · exact absurd hk (List.not_mem_nil _)

/-- `getD` ignores an appended suffix at indices inside the original list. -/
theorem getD_append_lt {α : Type _} (l l' : List α) (n : Nat) (d : α)
    (h : n < l.length) : (l ++ l').getD n d = l.getD n d := by
  induction l generalizing n with
  | nil => simp at h
  | cons a rest ih =>
      cases n with
      | zero => rfl
      | succ n => exact ih n (Nat.lt_of_succ_lt_succ h)

/-- `getD` at the old length of a one-element append reads the new element. -/
theorem getD_append_len {α : Type _} (l : List α) (x d : α) :
    (l ++ [x]).getD l.length d = x := by
  induction l with
  | nil => rfl
  | cons a rest ih => exact ih

/-- Setting the freshly appended slot replaces only it. -/
theorem set_append_len {α : Type _} (l : List α) (x y : α) :
    (l ++ [x]).set l.length y = l ++ [y] := by
  induction l with
  | nil => rfl
  | cons a rest ih => exact congrArg (List.cons a) ih

/-- C7: in the heap model, each chain method (`use`, `input`, `handle`,
`output`) returns a new instance (fresh identity), leaves everything
observable about the receiver unchanged, allocates a fresh middlewares array
(a different reference whose content copies the parent's — for `use`, with
the one middleware appended), and shallow-copies every other stage field,
overwriting exactly one. -/
theorem claim_C7 (IV OV F C M : Type) (s : Heap.Store M) (h : Heap.HeapHandler IV OV F C)
    (m : M) (iv : IV) (f : F) (ov : OV) (hwf : Heap.wf s h) :
    ((Heap.use s h m).2.hid ≠ h.hid ∧
     (Heap.use s h m).2.midsRef ≠ h.midsRef ∧
     Heap.observe (Heap.use s h m).1 h = Heap.observe s h ∧
     Heap.midsAt (Heap.use s h m).1 (Heap.use s h m).2.midsRef =
       Heap.midsAt s h.midsRef ++ [m] ∧
     (Heap.use s h m).2.inputValidator = h.inputValidator ∧
     (Heap.use s h m).2.outputValidator = h.outputValidator ∧
     (Heap.use s h m).2.handlerFn = h.handlerFn ∧
     (Heap.use s h m).2.config = h.config) ∧
    ((Heap.input s h (some iv)).2.hid ≠ h.hid ∧
     (Heap.input s h (some iv)).2.midsRef ≠ h.midsRef ∧
     Heap.observe (Heap.input s h (some iv)).1 h = Heap.observe s h ∧
     Heap.midsAt (Heap.input s h (some iv)).1 (Heap.input s h (some iv)).2.midsRef =
       Heap.midsAt s h.midsRef ∧
     (Heap.input s h (some iv)).2.inputValidator = some iv ∧
     (Heap.input s h (some iv)).2.outputValidator = h.outputValidator ∧
     (Heap.input s h (some iv)).2.handlerFn = h.handlerFn ∧
     (Heap.input s h (some iv)).2.config = h.config) ∧
    ((Heap.handle s h f).2.hid ≠ h.hid ∧
     (Heap.handle s h f).2.midsRef ≠ h.midsRef ∧
     Heap.observe (Heap.handle s h f).1 h = Heap.observe s h ∧
     Heap.midsAt (Heap.handle s h f).1 (Heap.handle s h f).2.midsRef =
       Heap.midsAt s h.midsRef ∧
     (Heap.handle s h f).2.handlerFn = some f ∧
     (Heap.handle s h f).2.inputValidator = h.inputValidator ∧
     (Heap.handle s h f).2.outputValidator = h.outputValidator ∧
     (Heap.handle s h f).2.config = h.config) ∧
    ((Heap.output s h (some ov)).2.hid ≠ h.hid ∧
     (Heap.output s h (some ov)).2.midsRef ≠ h.midsRef ∧
     Heap.observe (Heap.output s h (some ov)).1 h = Heap.observe s h ∧
     Heap.midsAt (Heap.output s h (some ov)).1 (Heap.output s h (some ov)).2.midsRef =
       Heap.midsAt s h.midsRef ∧
     (Heap.output s h (some ov)).2.outputValidator = some ov ∧
     (Heap.output s h (some ov)).2.inputValidator = h.inputValidator ∧
     (Heap.output s h (some ov)).2.handlerFn = h.handlerFn ∧
     (Heap.output s h (some ov)).2.config = h.config) := by
  obtain ⟨hh, hr⟩ := hwf
  refine ⟨⟨?_, ?_, ?_, ?_, rfl, rfl, rfl, rfl⟩, ⟨?_, ?_, ?_, ?_, rfl, rfl, rfl, rfl⟩,
    ⟨?_, ?_, ?_, ?_, rfl, rfl, rfl, rfl⟩, ⟨?_, ?_, ?_, ?_, rfl, rfl, rfl, rfl⟩⟩
  · simp only [Heap.use, Heap.clone]
    omega
  · simp only [Heap.use, Heap.clone]
    omega
  · simp only [Heap.use, Heap.clone, Heap.observe, Heap.midsAt]
    rw [getD_append_len, set_append_len, getD_append_lt _ _ _ _ hr]
  · simp only [Heap.use, Heap.clone, Heap.midsAt]
    rw [getD_append_len, set_append_len, getD_append_len]
  · simp only [Heap.input, Heap.clone]
    omega
  · simp only [Heap.input, Heap.clone]
    omega
  · simp only [Heap.input, Heap.clone, Heap.observe, Heap.midsAt]
    rw [getD_append_lt _ _ _ _ hr]
  · simp only [Heap.input, Heap.clone, Heap.midsAt]
    rw [getD_append_len]
  · simp only [Heap.handle, Heap.clone]
    omega
  · simp only [Heap.handle, Heap.clone]
    omega
  · simp only [Heap.handle, Heap.clone, Heap.observe, Heap.midsAt]
    rw [getD_append_lt _ _ _ _ hr]
  · simp only [Heap.handle, Heap.clone, Heap.midsAt]
    rw [getD_append_len]
  · simp only [Heap.output, Heap.clone]
    omega
  · simp only [Heap.output, Heap.clone]
    omega
  · simp only [Heap.output, Heap.clone, Heap.observe, Heap.midsAt]
    rw [getD_append_lt _ _ _ _ hr]
  · simp only [Heap.output, Heap.clone, Heap.midsAt]
    rw [getD_append_len]

/-- C7 witness: the `use` clauses on a concrete one-handler store. -/
theorem claim_C7_witness :
    (Heap.use Fix.s0 Fix.h0 5).2.hid ≠ Fix.h0.hid ∧
    Heap.observe (Heap.use Fix.s0 Fix.h0 5).1 Fix.h0 = Heap.observe Fix.s0 Fix.h0 ∧
    Heap.midsAt (Heap.use Fix.s0 Fix.h0 5).1 (Heap.use Fix.s0 Fix.h0 5).2.midsRef =
      Heap.midsAt Fix.s0 Fix.h0.midsRef ++ [5] := by
  have hc := claim_C7 Nat Nat Nat Nat Nat Fix.s0 Fix.h0 5 1 2 3 ⟨by decide, by decide⟩
  exact ⟨hc.1.1, hc.1.2.2.1, hc.1.2.2.2.1⟩

/-- C9: `input()` and `output()` with no schema return a clone that retains
the previously attached validator: in the pure model the clone equals the
receiver (so `execute` behaves identically and still validates against the
earlier schema), and in the heap model the result is a distinct instance
that is observationally identical to the receiver, the receiver itself
untouched. -/
theorem claim_C9 :
    (∀ (g : HandlerConfig) (h : Handler) (a : Option ValidatorAdapter),
      Handler.input g h none a = h) ∧
    (∀ (g : HandlerConfig) (h : Handler) (a : Option ValidatorAdapter),
      Handler.output g h none a = h) ∧
    (∀ (g : HandlerConfig) (h : Handler) (a : Option ValidatorAdapter) (env : Env)
        (x : Val) (c : Option Val),
      (Handler.input g h none a).execute env x c = h.execute env x c) ∧
    (∀ (g : HandlerConfig) (h : Handler) (a : Option ValidatorAdapter) (env : Env)
        (x : Val) (c : Option Val),
      (Handler.output g h none a).execute env x c = h.execute env x c) ∧
    (∀ (IV OV F C M : Type) (s : Heap.Store M) (h : Heap.HeapHandler IV OV F C),
      Heap.wf s h →
      (Heap.input s h none).2.hid ≠ h.hid ∧
      (Heap.input s h none).2.inputValidator = h.inputValidator ∧
      Heap.observe (Heap.input s h none).1 (Heap.input s h none).2 = Heap.observe s h ∧
      Heap.observe (Heap.input s h none).1 h = Heap.observe s h ∧
      (Heap.output s h none).2.hid ≠ h.hid ∧
      (Heap.output s h none).2.outputValidator = h.outputValidator ∧
      Heap.observe (Heap.output s h none).1 (Heap.output s h none).2 = Heap.observe s h ∧
      Heap.observe (Heap.output s h none).1 h = Heap.observe s h) := by
  refine ⟨?_, ?_, ?_, ?_, ?_⟩
  · intro g h a
    simp [Handler.input, clone_eq]
  · intro g h a
    simp [Handler.output, clone_eq]
  · intro g h a env x c
    rw [show Handler.input g h none a = h from by simp [Handler.input, clone_eq]]
  · intro g h a env x c
    rw [show Handler.output g h none a = h from by simp [Handler.output, clone_eq]]
  · intro IV OV F C M s h hwf
    obtain ⟨hh, hr⟩ := hwf
    refine ⟨?_, rfl, ?_, ?_, ?_, rfl, ?_, ?_⟩
    · simp only [Heap.input, Heap.clone]
      omega
    · simp only [Heap.input, Heap.clone, Heap.observe, Heap.midsAt]
      rw [getD_append_len]
    · simp only [Heap.input, Heap.clone, Heap.observe, Heap.midsAt]
      rw [getD_append_lt _ _ _ _ hr]
    · simp only [Heap.output, Heap.clone]
      omega
    · simp only [Heap.output, Heap.clone, Heap.observe, Heap.midsAt]
      rw [getD_append_len]
    · simp only [Heap.output, Heap.clone, Heap.observe, Heap.midsAt]
      rw [getD_append_lt _ _ _ _ hr]

/-- C9 witness: a no-schema `input()` call on concrete pure and heap
fixtures — the pure clone equals the receiver, the heap clone is a fresh
identity observationally equal to it. -/
theorem claim_C9_witness :
    Handler.input Fix.cfgOff (Handler.new Fix.cfgOff none) none none =
      Handler.new Fix.cfgOff none ∧
    (Heap.input Fix.s0 Fix.h0 none).2.hid ≠ Fix.h0.hid ∧
    Heap.observe (Heap.input Fix.s0 Fix.h0 none).1 (Heap.input Fix.s0 Fix.h0 none).2 =
      Heap.observe Fix.s0 Fix.h0 := by
  have hc := claim_C9.2.2.2.2 Nat Nat Nat Nat Nat Fix.s0 Fix.h0 ⟨by decide, by decide⟩
  exact ⟨claim_C9.1 Fix.cfgOff (Handler.new Fix.cfgOff none) none, hc.1, hc.2.2.1⟩

end TypedHandler
